import Mathlib

/-!
Verification of the clickhouse-async protocol engine.

Shallow embedding conventions:
* Wire bytes are values of `List Nat` (each element a byte, 0..255 on real
  streams; the encoders only produce such bytes).
* Python `str` values are identified with their UTF-8 byte sequences and
  therefore also modelled as `List Nat`.  All string literals appearing in
  the source (type names such as "Array(", packet field values in the test
  scenarios) are ASCII, where UTF-8 encoding is the identity on code points;
  `strBytes` below performs that identification.  UTF-8 decode errors on
  invalid byte sequences are not modelled.
* A Python method reading from `InputStream` is embedded as a state-passing
  function `List Nat → Except PyErr α × List Nat`: the second component is
  the stream contents left over afterwards.  On an error the stream state at
  the moment the exception was raised is returned, because the Python stream
  object keeps its buffer across a caught exception and callers continue
  reading from it.
* Exceptions are embedded as the `PyErr` type.  Exception message strings
  built with f-string interpolation of another exception object are not
  reproduced textually; the structured payload (such as the offending column
  name and type) is kept instead.
-/

/-- Embedding of the Python exception kinds raised by the protocol code. -/
inductive PyErr where
  /-- EOFError: end of stream. -/
  | eof
  /-- ValueError with its message bytes (DataType.create, parse_map_types). -/
  | valueError (msg : List Nat)
  /-- ProtocolError raised by read_block when a column value fails to
      decode; carries the offending column name and type (the source also
      interpolates the cause into the message, which is not reproduced). -/
  | protocolError (colName colType : List Nat)
  /-- IndexError (LowCardinality dictionary lookup out of range). -/
  | indexError
  /-- ConnectionError raised during the handshake. -/
  | connectionError
deriving DecidableEq, Repr

/-- UTF-8 bytes of an ASCII string literal (all literals used are ASCII, for
which UTF-8 is the identity on code points). -/
def strBytes (s : String) : List Nat := s.data.map Char.toNat

/-- InputStream.read / InputStream.read_exactly over a fully buffered stream:
with the whole remaining byte sequence `s` available, both return the first
`n` bytes, or raise EOFError leaving the buffered bytes in place when fewer
than `n` remain.  (The chunked transport-level model is `isRead` below;
`read_exactly` adds no behaviour on top of `read` because `read` already
raises on short streams.) -/
def readN (n : Nat) (s : List Nat) : Except PyErr (List Nat) × List Nat :=
  if n ≤ s.length then (.ok (s.take n), s.drop n) else (.error .eof, s)

/-- Loop body of WireFormat.read_varint / InputStream.read_varint:
result |= (b & 0x7F) << shift; shift += 7; stop when b & 0x80 is clear. -/
def readVarintAux (result shift : Nat) : List Nat → Except PyErr Nat × List Nat
  | [] => (.error .eof, [])
  | b :: rest =>
    let result' := result ||| ((b &&& 127) <<< shift)
    if b &&& 128 = 0 then (.ok result', rest)
    else readVarintAux result' (shift + 7) rest

/-- WireFormat.read_varint / InputStream.read_varint. -/
def read_varint (s : List Nat) : Except PyErr Nat × List Nat :=
  readVarintAux 0 0 s

/-- WireFormat.write_varint: byte = value & 0x7F; value >>= 7; set the
continuation bit 0x80 unless the remaining value is zero. -/
def write_varint (value : Nat) : List Nat :=
  if value >>> 7 = 0 then [value &&& 127]
  else (value &&& 127 ||| 128) :: write_varint (value >>> 7)
termination_by value
decreasing_by
  rename_i h
  rw [Nat.shiftRight_eq_div_pow] at h ⊢
  have h2 : (2 : Nat) ^ 7 = 128 := by norm_num
  rw [h2] at h ⊢
  omega

theorem land127_eq_mod (b : Nat) : b &&& 127 = b % 128 := by
  have h : (127 : Nat) = 2 ^ 7 - 1 := by norm_num
  have h2 : (128 : Nat) = 2 ^ 7 := by norm_num
  rw [h, h2, Nat.and_pow_two_sub_one_eq_mod]

theorem shiftRight7_eq_div (v : Nat) : v >>> 7 = v / 128 := by
  rw [Nat.shiftRight_eq_div_pow]

theorem lor_of_lt_add (r m s : Nat) (h : r < 2 ^ s) :
    r ||| m <<< s = r + m * 2 ^ s := by
  rw [Nat.shiftLeft_eq, Nat.lor_comm, Nat.mul_comm m (2 ^ s),
    ← Nat.mul_add_lt_is_or h m]
  omega

theorem lor_128_eq_add (m : Nat) (h : m < 128) : m ||| 128 = m + 128 := by
  have h7 : m < 2 ^ 7 := by omega
  have h2 := Nat.mul_add_lt_is_or h7 1
  norm_num at h2
  rw [Nat.lor_comm]
  omega

theorem land128_of_lt (m : Nat) (h : m < 128) : m &&& 128 = 0 := by
  apply Nat.eq_of_testBit_eq
  intro i
  simp only [Nat.testBit_and, Nat.zero_testBit]
  rcases eq_or_ne i 7 with rfl | hne
  · have : m.testBit 7 = false := Nat.testBit_lt_two_pow (by omega)
    simp [this]
  · have h2 : (128 : Nat) = 2 ^ 7 := by norm_num
    have : (128 : Nat).testBit i = false := by
      rw [h2]; exact Nat.testBit_two_pow_of_ne (Ne.symm hne)
    simp [this]

theorem land128_hi_ne (m : Nat) (h : m < 128) : (m + 128) &&& 128 ≠ 0 := by
  intro hcontra
  have h7 : m < 2 ^ 7 := by omega
  have ht : (m + 128).testBit 7 = true := by
    have h128 : m + 128 = 2 ^ 7 * 1 + m := by omega
    rw [h128, Nat.testBit_mul_pow_two_add 1 h7 7]
    simp
  have h2 : (128 : Nat) = 2 ^ 7 := by norm_num
  have : ((m + 128) &&& 128).testBit 7 = true := by
    rw [Nat.testBit_and, ht, h2, Nat.testBit_two_pow_self]
    rfl
  rw [hcontra] at this
  simp [Nat.zero_testBit] at this

theorem readVarintAux_write (n : Nat) :
    ∀ r s : Nat, ∀ rest : List Nat, r < 2 ^ s →
      readVarintAux r s (write_varint n ++ rest) = (.ok (r + n * 2 ^ s), rest) := by
  induction n using Nat.strong_induction_on with
  | _ n ih =>
    intro r s rest hr
    rw [write_varint]
    simp only [shiftRight7_eq_div, land127_eq_mod]
    by_cases h0 : n / 128 = 0
    · have hn : n < 128 := by omega
      rw [if_pos h0]
      have hm : n % 128 = n := Nat.mod_eq_of_lt hn
      rw [hm]
      simp only [List.singleton_append, readVarintAux]
      rw [land127_eq_mod, hm, land128_of_lt n hn, if_pos rfl,
        lor_of_lt_add r n s hr]
      simp
    · rw [if_neg h0]
      have hmlt : n % 128 < 128 := by omega
      simp only [List.cons_append, readVarintAux]
      rw [lor_128_eq_add _ hmlt, land127_eq_mod]
      have hmod : (n % 128 + 128) % 128 = n % 128 := by omega
      rw [hmod, if_neg (land128_hi_ne (n % 128) hmlt)]
      have hside : r ||| (n % 128) <<< s < 2 ^ (s + 7) := by
        rw [lor_of_lt_add r (n % 128) s hr]
        have hpow : 2 ^ (s + 7) = 128 * 2 ^ s := by ring
        have h1 : n % 128 * 2 ^ s ≤ 127 * 2 ^ s :=
          Nat.mul_le_mul_right _ (by omega)
        omega
      simp only [List.append_eq]
      rw [ih (n / 128) (by omega) (r ||| (n % 128) <<< s) (s + 7) rest hside,
        lor_of_lt_add r (n % 128) s hr]
      have hsplit : 128 * (n / 128) + n % 128 = n := Nat.div_add_mod n 128
      have harith : r + n % 128 * 2 ^ s + n / 128 * 2 ^ (s + 7) = r + n * 2 ^ s := by
        have h1 : (2 : Nat) ^ (s + 7) = 2 ^ s * 128 := by ring
        have h2 : n * 2 ^ s = 128 * (n / 128) * 2 ^ s + n % 128 * 2 ^ s := by
          rw [← Nat.add_mul, hsplit]
        rw [h1, h2]; ring
      rw [harith]

/-- WireFormat.read_binary_string / InputStream.read_string: a varint length
prefix followed by that many raw bytes (UTF-8 decoding is the identity under
the byte-level identification of strings). -/
def read_string (s : List Nat) : Except PyErr (List Nat) × List Nat :=
  match read_varint s with
  | (.ok length, s1) => readN length s1
  | (.error e, s1) => (.error e, s1)

theorem readVarintAux_mono (s : List Nat) :
    ∀ r sh, ((readVarintAux r sh s).2).length ≤ s.length := by
  induction s with
  | nil => intro r sh; simp [readVarintAux]
  | cons b rest ih =>
    intro r sh
    simp only [readVarintAux]
    by_cases h : b &&& 128 = 0
    · rw [if_pos h]; simp
    · rw [if_neg h]
      exact Nat.le_trans (ih _ _) (by simp)

theorem readVarintAux_ok_lt (s : List Nat) :
    ∀ r sh v s', readVarintAux r sh s = (.ok v, s') → s'.length < s.length := by
  induction s with
  | nil => intro r sh v s' h; simp [readVarintAux] at h
  | cons b rest ih =>
    intro r sh v s' h
    simp only [readVarintAux] at h
    by_cases hc : b &&& 128 = 0
    · rw [if_pos hc] at h
      obtain ⟨-, rfl⟩ := Prod.mk.injEq .. ▸ h
      simp only [List.length_cons]
      omega
    · rw [if_neg hc] at h
      exact Nat.lt_trans (ih _ _ _ _ h) (by simp)

theorem read_varint_mono (s : List Nat) : ((read_varint s).2).length ≤ s.length :=
  readVarintAux_mono s 0 0

theorem read_varint_ok_lt {s : List Nat} {v : Nat} {s' : List Nat}
    (h : read_varint s = (.ok v, s')) : s'.length < s.length :=
  readVarintAux_ok_lt s 0 0 v s' h

theorem readN_mono (n : Nat) (s : List Nat) : ((readN n s).2).length ≤ s.length := by
  unfold readN
  split <;> simp

theorem read_string_mono (s : List Nat) : ((read_string s).2).length ≤ s.length := by
  unfold read_string
  rcases h : read_varint s with ⟨res, s1⟩
  have h1 : s1.length ≤ s.length := by
    have := read_varint_mono s
    rw [h] at this
    exact this
  cases res with
  | ok len => exact Nat.le_trans (readN_mono len s1) h1
  | error e => exact h1

theorem read_string_ok_lt {s : List Nat} {v s' : List Nat}
    (h : read_string s = (.ok v, s')) : s'.length < s.length := by
  rcases hv : read_varint s with ⟨res, s1⟩
  cases res with
  | ok len =>
    have h1 : s1.length < s.length := read_varint_ok_lt hv
    simp only [read_string, hv] at h
    have h2 : s'.length ≤ s1.length := by
      have := readN_mono len s1; rw [h] at this; exact this
    omega
  | error e =>
    simp only [read_string, hv] at h
    exact Except.noConfusion (congrArg Prod.fst h)

/-- Embedding of RemoteServerError (exceptions.py): code, name, message,
stack trace and an optional nested cause. -/
inductive RemoteServerError where
  | mk (code : Nat) (name message stack_trace : List Nat)
      (nested : Option RemoteServerError)
deriving Repr

/-- The fallback exception read_exception builds when the stream ends before
the full exception is decoded. -/
def genericReadFailure : RemoteServerError :=
  .mk 0 (strBytes "UnknownException")
    (strBytes "Failed to read exception from server") [] none

/-- query.read_exception: code varint, name, message, stack trace strings,
has-nested varint, then a recursive nested exception when nonzero; any
EOFError anywhere inside is caught and yields `genericReadFailure`.  (The
only error the primitive readers raise is EOFError, so the error branches
below are exactly the except-EOFError path.) -/
def read_exception (s : List Nat) : RemoteServerError × List Nat :=
  match h1 : read_varint s with
  | (.error _, s1) => (genericReadFailure, s1)
  | (.ok code, s1) =>
    match h2 : read_string s1 with
    | (.error _, s2) => (genericReadFailure, s2)
    | (.ok name, s2) =>
      match h3 : read_string s2 with
      | (.error _, s3) => (genericReadFailure, s3)
      | (.ok message, s3) =>
        match h4 : read_string s3 with
        | (.error _, s4) => (genericReadFailure, s4)
        | (.ok stack, s4) =>
          match h5 : read_varint s4 with
          | (.error _, s5) => (genericReadFailure, s5)
          | (.ok hasNested, s5) =>
            if hasNested ≠ 0 then
              (.mk code name message stack (some (read_exception s5).1),
                (read_exception s5).2)
            else
              (.mk code name message stack none, s5)
termination_by s.length
decreasing_by
  have l1 := read_varint_ok_lt h1
  have l2 := read_string_ok_lt h2
  have l3 := read_string_ok_lt h3
  have l4 := read_string_ok_lt h4
  have l5 := read_varint_ok_lt h5
  omega

theorem read_exception_mono_aux (n : Nat) :
    ∀ s : List Nat, s.length ≤ n → ((read_exception s).2).length ≤ s.length := by
  induction n using Nat.strong_induction_on with
  | _ n ih =>
    intro s hs
    rw [read_exception]
    split
    next e s1 h1 =>
      have t1 : s1.length ≤ s.length := by
        have := read_varint_mono s; rw [h1] at this; exact this
      show s1.length ≤ s.length
      exact t1
    next code s1 h1 =>
      have m1 : s1.length < s.length := read_varint_ok_lt h1
      split
      next e s2 h2 =>
        have t2 : s2.length ≤ s1.length := by
          have := read_string_mono s1; rw [h2] at this; exact this
        show s2.length ≤ s.length
        omega
      next name s2 h2 =>
        have m2 : s2.length < s1.length := read_string_ok_lt h2
        split
        next e s3 h3 =>
          have t3 : s3.length ≤ s2.length := by
            have := read_string_mono s2; rw [h3] at this; exact this
          show s3.length ≤ s.length
          omega
        next message s3 h3 =>
          have m3 : s3.length < s2.length := read_string_ok_lt h3
          split
          next e s4 h4 =>
            have t4 : s4.length ≤ s3.length := by
              have := read_string_mono s3; rw [h4] at this; exact this
            show s4.length ≤ s.length
            omega
          next stack s4 h4 =>
            have m4 : s4.length < s3.length := read_string_ok_lt h4
            split
            next e s5 h5 =>
              have t5 : s5.length ≤ s4.length := by
                have := read_varint_mono s4; rw [h5] at this; exact this
              show s5.length ≤ s.length
              omega
            next hasNested s5 h5 =>
              have m5 : s5.length < s4.length := read_varint_ok_lt h5
              by_cases hz : hasNested ≠ 0
              · rw [if_pos hz]
                have hrec := ih s5.length (by omega) s5 le_rfl
                show ((read_exception s5).2).length ≤ s.length
                omega
              · rw [if_neg hz]
                show s5.length ≤ s.length
                omega

theorem read_exception_mono (s : List Nat) :
    ((read_exception s).2).length ≤ s.length :=
  read_exception_mono_aux s.length s le_rfl

/-- Embedding of the DataType codec class hierarchy (data_types.py) as a
tagged tree: one constructor per scalar codec class, one per composite. -/
inductive DataType where
  | string
  | uint8
  | uint16
  | uint32
  | uint64
  | int8
  | int16
  | int32
  | int64
  | float32
  | float64
  | date
  | datetime
  | array (item_type : DataType)
  | tuple (item_types : List DataType)
  | map (key_type value_type : DataType)
  | nullable (inner_type : DataType)
  | lowCardinality (inner_type : DataType)
deriving Repr

/-- ASCII characters removed by Python str.strip() (the whitespace code
points below 128: tab, LF, VT, FF, CR, the file/group/record/unit
separators, and space). -/
def pyStripChars : List Nat := [9, 10, 11, 12, 13, 28, 29, 30, 31, 32]

/-- Python str.strip(): remove leading and trailing whitespace. -/
def pyStrip (s : List Nat) : List Nat :=
  ((s.dropWhile (· ∈ pyStripChars)).reverse.dropWhile (· ∈ pyStripChars)).reverse

/-- Loop of parse_tuple_types: walk the characters, splitting on commas at
parenthesis-nesting level zero; 40/41/44 are the code points of the
characters compared against in the source.  The nesting level is an `Int`
because the Python counter may go below zero on unbalanced input. -/
def ptAux (cs : List Nat) (current : List Nat) (nesting : Int) : List (List Nat) :=
  match cs with
  | [] => if current = [] then [] else [pyStrip current]
  | c :: rest =>
    if c = 44 ∧ nesting = 0 then pyStrip current :: ptAux rest [] 0
    else ptAux rest (current ++ [c])
      (if c = 40 then nesting + 1 else if c = 41 then nesting - 1 else nesting)

/-- data_types.parse_tuple_types. -/
def parse_tuple_types (inner_types_str : List Nat) : List (List Nat) :=
  ptAux inner_types_str [] 0

/-- data_types.parse_map_types: exactly two top-level arguments, else a
ValueError. -/
def parse_map_types (inner_types_str : List Nat) :
    Except PyErr (List Nat × List Nat) :=
  match parse_tuple_types inner_types_str with
  | [k, v] => .ok (k, v)
  | _ => .error (.valueError (strBytes "Invalid map type: " ++ inner_types_str))

theorem pyStrip_len (s : List Nat) : (pyStrip s).length ≤ s.length := by
  unfold pyStrip
  have h1 := (List.dropWhile_sublist
    (l := s) (fun c => decide (c ∈ pyStripChars))).length_le
  have h2 := (List.dropWhile_sublist
    (l := (s.dropWhile (· ∈ pyStripChars)).reverse)
    (fun c => decide (c ∈ pyStripChars))).length_le
  simp only [List.length_reverse] at *
  omega

theorem ptAux_sum_len (cs : List Nat) :
    ∀ (current : List Nat) (nesting : Int),
      ((ptAux cs current nesting).map List.length).sum
          + (ptAux cs current nesting).length
        ≤ current.length + cs.length + 1 := by
  induction cs with
  | nil =>
    intro current nesting
    simp only [ptAux]
    split
    · simp
    · have := pyStrip_len current
      simp
      omega
  | cons c rest ih =>
    intro current nesting
    simp only [ptAux]
    split
    · have h1 := ih [] 0
      have h2 := pyStrip_len current
      simp only [List.map_cons, List.sum_cons, List.length_cons, List.length,
        List.length_nil] at h1 ⊢
      omega
    · have h1 := ih (current ++ [c])
        (if c = 40 then nesting + 1 else if c = 41 then nesting - 1 else nesting)
      simp only [List.length_append, List.length_cons, List.length_nil] at h1 ⊢
      omega

theorem ptAux_mem_len (cs : List Nat) :
    ∀ (current : List Nat) (nesting : Int) (t : List Nat),
      t ∈ ptAux cs current nesting → t.length ≤ current.length + cs.length := by
  intro current nesting t ht
  have hsum := ptAux_sum_len cs current nesting
  have hmem : t.length ≤ ((ptAux cs current nesting).map List.length).sum := by
    exact List.single_le_sum (by intro x hx; omega) _ (List.mem_map_of_mem _ ht)
  have hlen : 1 ≤ (ptAux cs current nesting).length :=
    List.length_pos.mpr (List.ne_nil_of_mem ht)
  omega

theorem parse_map_types_ok_len {s k v : List Nat}
    (h : parse_map_types s = .ok (k, v)) :
    k.length ≤ s.length ∧ v.length ≤ s.length := by
  unfold parse_map_types at h
  split at h
  next k' v' heq =>
    have hk : k' ∈ parse_tuple_types s := by rw [heq]; simp
    have hv : v' ∈ parse_tuple_types s := by rw [heq]; simp
    have h1 := ptAux_mem_len s [] 0 k' hk
    have h2 := ptAux_mem_len s [] 0 v' hv
    simp only [Except.ok.injEq, Prod.mk.injEq] at h
    obtain ⟨rfl, rfl⟩ := h
    simp only [List.length_nil] at h1 h2
    omega
  next heq => simp at h

mutual

/-- DataType.create (data_types.py): exact scalar name matches first, then
the composite wrappers in source order (Array, Tuple, Map, Nullable,
LowCardinality), each requiring the descriptor to end in a closing
parenthesis; anything else raises ValueError.  Slicing
type_string[k:-1] is (drop k).dropLast. -/
def DataType.create (type_string : List Nat) : Except PyErr DataType :=
  if type_string = strBytes "String" then .ok .string
  else if type_string = strBytes "UInt8" then .ok .uint8
  else if type_string = strBytes "UInt16" then .ok .uint16
  else if type_string = strBytes "UInt32" then .ok .uint32
  else if type_string = strBytes "UInt64" then .ok .uint64
  else if type_string = strBytes "Int8" then .ok .int8
  else if type_string = strBytes "Int16" then .ok .int16
  else if type_string = strBytes "Int32" then .ok .int32
  else if type_string = strBytes "Int64" then .ok .int64
  else if type_string = strBytes "Float32" then .ok .float32
  else if type_string = strBytes "Float64" then .ok .float64
  else if type_string = strBytes "Date" then .ok .date
  else if type_string = strBytes "DateTime" then .ok .datetime
  else if h1 : type_string.take 6 = strBytes "Array("
      ∧ type_string.getLast? = some 41 then
    match DataType.create ((type_string.drop 6).dropLast) with
    | .ok inner => .ok (.array inner)
    | .error e => .error e
  else if h2 : type_string.take 6 = strBytes "Tuple("
      ∧ type_string.getLast? = some 41 then
    match createList (parse_tuple_types ((type_string.drop 6).dropLast)) with
    | .ok items => .ok (.tuple items)
    | .error e => .error e
  else if h3 : type_string.take 4 = strBytes "Map("
      ∧ type_string.getLast? = some 41 then
    match hm : parse_map_types ((type_string.drop 4).dropLast) with
    | .ok (k, v) =>
      match DataType.create k with
      | .ok kt =>
        match DataType.create v with
        | .ok vt => .ok (.map kt vt)
        | .error e => .error e
      | .error e => .error e
    | .error e => .error e
  else if h4 : type_string.take 9 = strBytes "Nullable("
      ∧ type_string.getLast? = some 41 then
    match DataType.create ((type_string.drop 9).dropLast) with
    | .ok inner => .ok (.nullable inner)
    | .error e => .error e
  else if h5 : type_string.take 15 = strBytes "LowCardinality("
      ∧ type_string.getLast? = some 41 then
    match DataType.create ((type_string.drop 15).dropLast) with
    | .ok inner => .ok (.lowCardinality inner)
    | .error e => .error e
  else .error (.valueError (strBytes "Unsupported data type: " ++ type_string))
termination_by 2 * type_string.length
decreasing_by
  · have hc : (strBytes "Array(").length = 6 := by decide
    have hl := congrArg List.length h1.1
    rw [hc, List.length_take] at hl
    simp only [List.length_dropLast, List.length_drop]
    omega
  · have hc : (strBytes "Tuple(").length = 6 := by decide
    have hl := congrArg List.length h2.1
    rw [hc, List.length_take] at hl
    have hs := ptAux_sum_len ((type_string.drop 6).dropLast) [] 0
    simp only [parse_tuple_types, List.length_dropLast, List.length_drop,
      List.length_nil] at *
    omega
  · have hc : (strBytes "Map(").length = 4 := by decide
    have hl := congrArg List.length h3.1
    rw [hc, List.length_take] at hl
    have hkv := parse_map_types_ok_len hm
    simp only [List.length_dropLast, List.length_drop] at *
    omega
  · have hc : (strBytes "Map(").length = 4 := by decide
    have hl := congrArg List.length h3.1
    rw [hc, List.length_take] at hl
    have hkv := parse_map_types_ok_len hm
    simp only [List.length_dropLast, List.length_drop] at *
    omega
  · have hc : (strBytes "Nullable(").length = 9 := by decide
    have hl := congrArg List.length h4.1
    rw [hc, List.length_take] at hl
    simp only [List.length_dropLast, List.length_drop]
    omega
  · have hc : (strBytes "LowCardinality(").length = 15 := by decide
    have hl := congrArg List.length h5.1
    rw [hc, List.length_take] at hl
    simp only [List.length_dropLast, List.length_drop]
    omega

/-- The list comprehension [DataType.create(t) for t in inner_types] in the
Tuple branch of DataType.create: left to right, first error propagates. -/
def createList (types : List (List Nat)) : Except PyErr (List DataType) :=
  match types with
  | [] => .ok []
  | t :: rest =>
    match DataType.create t with
    | .ok dt =>
      match createList rest with
      | .ok dts => .ok (dt :: dts)
      | .error e => .error e
    | .error e => .error e
termination_by 2 * ((types.map List.length).sum) + types.length
decreasing_by
  · simp only [List.map_cons, List.sum_cons, List.length_cons]
    omega
  · simp only [List.map_cons, List.sum_cons, List.length_cons]
    omega

end

/-- Embedding of the Python values produced by the codec read methods.
Floats keep their raw little-endian wire bytes (struct.unpack is injective
on the 4/8 raw bytes, and no claim inspects float arithmetic); Date keeps
its wire day count (date.fromordinal is injective on the in-range days see
DataType.read_value) and DateTime its Unix timestamp
(datetime.fromtimestamp depends on the host timezone and is not modelled
further). -/
inductive Value where
  | str (bytes : List Nat)
  | int (v : Int)
  | float32 (raw : List Nat)
  | float64 (raw : List Nat)
  | date (days : Nat)
  | datetime (timestamp : Nat)
  | null
  | list (items : List Value)
  | tuple (items : List Value)
  | map (entries : List (Value × Value))
deriving Repr

mutual

/-- Structural equality of values, as Python == compares the objects the
codecs build.  (Python raises TypeError when an unhashable value is used as
a dict key and treats NaN floats as unequal to themselves; neither
behaviour is modelled, and no claim depends on them.) -/
def Value.beq : Value → Value → Bool
  | .str a, .str b => a == b
  | .int a, .int b => a == b
  | .float32 a, .float32 b => a == b
  | .float64 a, .float64 b => a == b
  | .date a, .date b => a == b
  | .datetime a, .datetime b => a == b
  | .null, .null => true
  | .list a, .list b => Value.beqList a b
  | .tuple a, .tuple b => Value.beqList a b
  | .map a, .map b => Value.beqPairs a b
  | _, _ => false

def Value.beqList : List Value → List Value → Bool
  | [], [] => true
  | a :: as, b :: bs => Value.beq a b && Value.beqList as bs
  | _, _ => false

def Value.beqPairs : List (Value × Value) → List (Value × Value) → Bool
  | [], [] => true
  | (ak, av) :: as, (bk, bv) :: bs =>
    Value.beq ak bk && Value.beq av bv && Value.beqPairs as bs
  | _, _ => false

end

/-- Python dict assignment d[key] = v: replace the value at an existing
equal key (keeping its position and original key object), else append. -/
def pyDictInsert {κ α : Type} (beq : κ → κ → Bool) :
    List (κ × α) → κ → α → List (κ × α)
  | [], key, v => [(key, v)]
  | (k, a) :: rest, key, v =>
    if beq k key then (k, v) :: rest else (k, a) :: pyDictInsert beq rest key v

/-- Highest ordinal accepted by date.fromordinal (9999-12-31). -/
def dateMaxOrdinal : Nat := 3652059

mutual

/-- The read_value methods of the codec classes (data_types.py), dispatched
on the codec tree node.  Unsigned widths read a varint; signed widths
subtract the width modulus from magnitudes at or above half of it;
Float32/64 take 4/8 raw bytes; Date range-checks the ordinal as
date.fromordinal does (its ValueError message is not reproduced);
composites recurse.  LowCardinality indexes its decoded dictionary and
raises IndexError when the index is out of range. -/
def DataType.read_value (dt : DataType) (s : List Nat) :
    Except PyErr Value × List Nat :=
  match dt with
  | .string =>
    match read_string s with
    | (.ok b, s1) => (.ok (.str b), s1)
    | (.error e, s1) => (.error e, s1)
  | .uint8 | .uint16 | .uint32 | .uint64 =>
    match read_varint s with
    | (.ok v, s1) => (.ok (.int (v : Int)), s1)
    | (.error e, s1) => (.error e, s1)
  | .int8 =>
    match read_varint s with
    | (.ok v, s1) =>
      (.ok (.int (if v < 128 then (v : Int) else (v : Int) - 256)), s1)
    | (.error e, s1) => (.error e, s1)
  | .int16 =>
    match read_varint s with
    | (.ok v, s1) =>
      (.ok (.int (if v < 32768 then (v : Int) else (v : Int) - 65536)), s1)
    | (.error e, s1) => (.error e, s1)
  | .int32 =>
    match read_varint s with
    | (.ok v, s1) =>
      (.ok (.int (if v < 2147483648 then (v : Int)
        else (v : Int) - 4294967296)), s1)
    | (.error e, s1) => (.error e, s1)
  | .int64 =>
    match read_varint s with
    | (.ok v, s1) =>
      (.ok (.int (if v < 9223372036854775808 then (v : Int)
        else (v : Int) - 18446744073709551616)), s1)
    | (.error e, s1) => (.error e, s1)
  | .float32 =>
    match readN 4 s with
    | (.ok raw, s1) => (.ok (.float32 raw), s1)
    | (.error e, s1) => (.error e, s1)
  | .float64 =>
    match readN 8 s with
    | (.ok raw, s1) => (.ok (.float64 raw), s1)
    | (.error e, s1) => (.error e, s1)
  | .date =>
    match read_varint s with
    | (.ok days, s1) =>
      if days + 719163 ≤ dateMaxOrdinal then (.ok (.date days), s1)
      else (.error (.valueError []), s1)
    | (.error e, s1) => (.error e, s1)
  | .datetime =>
    match read_varint s with
    | (.ok ts, s1) => (.ok (.datetime ts), s1)
    | (.error e, s1) => (.error e, s1)
  | .array item_type =>
    match read_varint s with
    | (.ok length, s1) =>
      match readValueN item_type length s1 with
      | (.ok items, s2) => (.ok (.list items), s2)
      | (.error e, s2) => (.error e, s2)
    | (.error e, s1) => (.error e, s1)
  | .tuple item_types =>
    match readValueSeq item_types s with
    | (.ok items, s1) => (.ok (.tuple items), s1)
    | (.error e, s1) => (.error e, s1)
  | .map key_type value_type =>
    match read_varint s with
    | (.ok size, s1) =>
      match readPairsN key_type value_type size s1 with
      | (.ok pairs, s2) =>
        (.ok (.map (pairs.foldl
          (fun d kv => pyDictInsert Value.beq d kv.1 kv.2) [])), s2)
      | (.error e, s2) => (.error e, s2)
    | (.error e, s1) => (.error e, s1)
  | .nullable inner_type =>
    match read_varint s with
    | (.ok is_null, s1) =>
      if is_null ≠ 0 then (.ok .null, s1)
      else DataType.read_value inner_type s1
    | (.error e, s1) => (.error e, s1)
  | .lowCardinality inner_type =>
    match read_varint s with
    | (.ok dict_size, s1) =>
      match readValueN inner_type dict_size s1 with
      | (.ok dictionary, s2) =>
        match read_varint s2 with
        | (.ok index, s3) =>
          if h : index < dictionary.length
          then (.ok (dictionary.get ⟨index, h⟩), s3)
          else (.error .indexError, s3)
        | (.error e, s3) => (.error e, s3)
      | (.error e, s2) => (.error e, s2)
    | (.error e, s1) => (.error e, s1)
termination_by (sizeOf dt, 0)

/-- The element loop of ArrayType.read_value / the dictionary loop of
LowCardinalityType.read_value: read n values of the one child codec. -/
def readValueN (dt : DataType) (n : Nat) (s : List Nat) :
    Except PyErr (List Value) × List Nat :=
  match n with
  | 0 => (.ok [], s)
  | m + 1 =>
    match DataType.read_value dt s with
    | (.ok v, s1) =>
      match readValueN dt m s1 with
      | (.ok vs, s2) => (.ok (v :: vs), s2)
      | (.error e, s2) => (.error e, s2)
    | (.error e, s1) => (.error e, s1)
termination_by (sizeOf dt, n + 1)

/-- The per-child loop of TupleType.read_value: one value per child codec
in order. -/
def readValueSeq (dts : List DataType) (s : List Nat) :
    Except PyErr (List Value) × List Nat :=
  match dts with
  | [] => (.ok [], s)
  | dt :: rest =>
    match DataType.read_value dt s with
    | (.ok v, s1) =>
      match readValueSeq rest s1 with
      | (.ok vs, s2) => (.ok (v :: vs), s2)
      | (.error e, s2) => (.error e, s2)
    | (.error e, s1) => (.error e, s1)
termination_by (sizeOf dts, 0)

/-- The entry loop of MapType.read_value: n (key, value) pairs. -/
def readPairsN (key_type value_type : DataType) (n : Nat) (s : List Nat) :
    Except PyErr (List (Value × Value)) × List Nat :=
  match n with
  | 0 => (.ok [], s)
  | m + 1 =>
    match DataType.read_value key_type s with
    | (.ok k, s1) =>
      match DataType.read_value value_type s1 with
      | (.ok v, s2) =>
        match readPairsN key_type value_type m s2 with
        | (.ok ps, s3) => (.ok ((k, v) :: ps), s3)
        | (.error e, s3) => (.error e, s3)
      | (.error e, s2) => (.error e, s2)
    | (.error e, s1) => (.error e, s1)
termination_by (sizeOf key_type + sizeOf value_type, n + 1)
decreasing_by
  all_goals first
    | decreasing_tactic
    | (simp_wf
       have hv : 0 < sizeOf value_type := by cases value_type <;> simp_arith
       have hk : 0 < sizeOf key_type := by cases key_type <;> simp_arith
       apply Prod.Lex.left
       omega)

end

mutual

theorem read_value_mono (dt : DataType) (s : List Nat) :
    ((DataType.read_value dt s).2).length ≤ s.length := by
  cases dt with
  | string =>
    rcases h : read_string s with ⟨res, s1⟩
    have hm := read_string_mono s; rw [h] at hm
    cases res <;> simp only [DataType.read_value, h] <;> exact hm
  | uint8 | uint16 | uint32 | uint64 | datetime =>
    rcases h : read_varint s with ⟨res, s1⟩
    have hm := read_varint_mono s; rw [h] at hm
    cases res <;> simp only [DataType.read_value, h] <;> exact hm
  | int8 | int16 | int32 | int64 =>
    rcases h : read_varint s with ⟨res, s1⟩
    have hm := read_varint_mono s; rw [h] at hm
    cases res <;> simp only [DataType.read_value, h] <;> exact hm
  | float32 =>
    rcases h : readN 4 s with ⟨res, s1⟩
    have hm := readN_mono 4 s; rw [h] at hm
    cases res <;> simp only [DataType.read_value, h] <;> exact hm
  | float64 =>
    rcases h : readN 8 s with ⟨res, s1⟩
    have hm := readN_mono 8 s; rw [h] at hm
    cases res <;> simp only [DataType.read_value, h] <;> exact hm
  | date =>
    rcases h : read_varint s with ⟨res, s1⟩
    have hm := read_varint_mono s; rw [h] at hm
    cases res with
    | error e => simp only [DataType.read_value, h]; exact hm
    | ok days =>
      simp only [DataType.read_value, h]
      split <;> exact hm
  | array item_type =>
    rcases h : read_varint s with ⟨res, s1⟩
    have hm := read_varint_mono s; rw [h] at hm
    cases res with
    | error e => simp only [DataType.read_value, h]; exact hm
    | ok length =>
      rcases h2 : readValueN item_type length s1 with ⟨res2, s2⟩
      have hm2 := readValueN_mono item_type length s1; rw [h2] at hm2
      cases res2 <;> simp only [DataType.read_value, h, h2] <;>
        exact Nat.le_trans hm2 hm
  | tuple item_types =>
    rcases h : readValueSeq item_types s with ⟨res, s1⟩
    have hm := readValueSeq_mono item_types s; rw [h] at hm
    cases res <;> simp only [DataType.read_value, h] <;> exact hm
  | map key_type value_type =>
    rcases h : read_varint s with ⟨res, s1⟩
    have hm := read_varint_mono s; rw [h] at hm
    cases res with
    | error e => simp only [DataType.read_value, h]; exact hm
    | ok size =>
      rcases h2 : readPairsN key_type value_type size s1 with ⟨res2, s2⟩
      have hm2 := readPairsN_mono key_type value_type size s1; rw [h2] at hm2
      cases res2 <;> simp only [DataType.read_value, h, h2] <;>
        exact Nat.le_trans hm2 hm
  | nullable inner_type =>
    rcases h : read_varint s with ⟨res, s1⟩
    have hm := read_varint_mono s; rw [h] at hm
    cases res with
    | error e => simp only [DataType.read_value, h]; exact hm
    | ok is_null =>
      simp only [DataType.read_value, h]
      split
      · exact hm
      · exact Nat.le_trans (read_value_mono inner_type s1) hm
  | lowCardinality inner_type =>
    rcases h : read_varint s with ⟨res, s1⟩
    have hm := read_varint_mono s; rw [h] at hm
    cases res with
    | error e => simp only [DataType.read_value, h]; exact hm
    | ok dict_size =>
      rcases h2 : readValueN inner_type dict_size s1 with ⟨res2, s2⟩
      have hm2 := readValueN_mono inner_type dict_size s1; rw [h2] at hm2
      cases res2 with
      | error e => simp only [DataType.read_value, h, h2]; exact Nat.le_trans hm2 hm
      | ok dictionary =>
        rcases h3 : read_varint s2 with ⟨res3, s3⟩
        have hm3 := read_varint_mono s2; rw [h3] at hm3
        cases res3 with
        | error e =>
          simp only [DataType.read_value, h, h2, h3]
          exact Nat.le_trans hm3 (Nat.le_trans hm2 hm)
        | ok index =>
          simp only [DataType.read_value, h, h2, h3]
          split <;> exact Nat.le_trans hm3 (Nat.le_trans hm2 hm)
termination_by (sizeOf dt, 0)

theorem readValueN_mono (dt : DataType) (n : Nat) (s : List Nat) :
    ((readValueN dt n s).2).length ≤ s.length := by
  cases n with
  | zero => simp [readValueN]
  | succ m =>
    rcases h : DataType.read_value dt s with ⟨res, s1⟩
    have hm : s1.length ≤ s.length := by
      have := read_value_mono dt s; rw [h] at this; exact this
    cases res with
    | error e => simp only [readValueN, h]; exact hm
    | ok v =>
      rcases h2 : readValueN dt m s1 with ⟨res2, s2⟩
      have hm2 : s2.length ≤ s1.length := by
        have := readValueN_mono dt m s1; rw [h2] at this; exact this
      cases res2 <;> simp only [readValueN, h, h2] <;> exact Nat.le_trans hm2 hm
termination_by (sizeOf dt, n + 1)

theorem readValueSeq_mono (dts : List DataType) (s : List Nat) :
    ((readValueSeq dts s).2).length ≤ s.length := by
  cases dts with
  | nil => simp [readValueSeq]
  | cons dt rest =>
    rcases h : DataType.read_value dt s with ⟨res, s1⟩
    have hm : s1.length ≤ s.length := by
      have := read_value_mono dt s; rw [h] at this; exact this
    cases res with
    | error e => simp only [readValueSeq, h]; exact hm
    | ok v =>
      rcases h2 : readValueSeq rest s1 with ⟨res2, s2⟩
      have hm2 : s2.length ≤ s1.length := by
        have := readValueSeq_mono rest s1; rw [h2] at this; exact this
      cases res2 <;> simp only [readValueSeq, h, h2] <;> exact Nat.le_trans hm2 hm
termination_by (sizeOf dts, 0)

theorem readPairsN_mono (key_type value_type : DataType) (n : Nat) (s : List Nat) :
    ((readPairsN key_type value_type n s).2).length ≤ s.length := by
  cases n with
  | zero => simp [readPairsN]
  | succ m =>
    rcases h : DataType.read_value key_type s with ⟨res, s1⟩
    have hm : s1.length ≤ s.length := by
      have := read_value_mono key_type s; rw [h] at this; exact this
    cases res with
    | error e => simp only [readPairsN, h]; exact hm
    | ok k =>
      rcases h2 : DataType.read_value value_type s1 with ⟨res2, s2⟩
      have hm2 : s2.length ≤ s1.length := by
        have := read_value_mono value_type s1; rw [h2] at this; exact this
      cases res2 with
      | error e => simp only [readPairsN, h, h2]; exact Nat.le_trans hm2 hm
      | ok v =>
        rcases h3 : readPairsN key_type value_type m s2 with ⟨res3, s3⟩
        have hm3 : s3.length ≤ s2.length := by
          have := readPairsN_mono key_type value_type m s2; rw [h3] at this
          exact this
        cases res3 <;> simp only [readPairsN, h, h2, h3] <;>
          exact Nat.le_trans hm3 (Nat.le_trans hm2 hm)
termination_by (sizeOf key_type + sizeOf value_type, n + 1)
decreasing_by
  all_goals first
    | decreasing_tactic
    | (simp_wf
       have hv : 0 < sizeOf value_type := by cases value_type <;> simp_arith
       have hk : 0 < sizeOf key_type := by cases key_type <;> simp_arith
       apply Prod.Lex.left
       omega)

end

/-- query.BlockInfo. -/
structure BlockInfo where
  is_overflows : Bool := false
  bucket_num : Nat := 0
deriving DecidableEq, Repr

/-- A result row: the Python dict mapping column name to value, as the
insertion-ordered association list Python dicts preserve. -/
abbrev Row := List (List Nat × Value)

/-- query.Block. -/
structure Block where
  column_names : List (List Nat)
  column_types : List (List Nat)
  rows : List Row
  info : BlockInfo := {}
deriving Repr

/-- query.read_column_data: build the codec for the column type string and
read one value with it.  A ValueError from DataType.create propagates, as in
the source, to read_block's per-column handler. -/
def read_column_data (s : List Nat) (column_type : List Nat) :
    Except PyErr Value × List Nat :=
  match DataType.create column_type with
  | .ok data_type => data_type.read_value s
  | .error e => (.error e, s)

/-- The temporary-table loop of read_block: read and discard n strings. -/
def skipStrings (n : Nat) (s : List Nat) : Except PyErr Unit × List Nat :=
  match n with
  | 0 => (.ok (), s)
  | m + 1 =>
    match read_string s with
    | (.ok _, s1) => skipStrings m s1
    | (.error e, s1) => (.error e, s1)

/-- The column name/type loop of read_block: n (name, type) string pairs
accumulated into the two lists. -/
def readColPairs (n : Nat) (s : List Nat) :
    Except PyErr (List (List Nat) × List (List Nat)) × List Nat :=
  match n with
  | 0 => (.ok ([], []), s)
  | m + 1 =>
    match read_string s with
    | (.ok column_name, s1) =>
      match read_string s1 with
      | (.ok column_type, s2) =>
        match readColPairs m s2 with
        | (.ok (names, types), s3) =>
          (.ok (column_name :: names, column_type :: types), s3)
        | (.error e, s3) => (.error e, s3)
      | (.error e, s2) => (.error e, s2)
    | (.error e, s1) => (.error e, s1)

/-- The header part of query.read_block, in source order: the five
block-info varints (tag, is_overflows, tag, bucket_num, terminator — read
unconditionally, not tag-driven), the temporary-table name count and the
skipped names, the column and row counts, and the column name/type pairs. -/
def readBlockHeader (s : List Nat) :
    Except PyErr (BlockInfo × List (List Nat) × List (List Nat) × Nat) × List Nat :=
  match read_varint s with
  | (.error e, s1) => (.error e, s1)
  | (.ok _, s1) =>
    match read_varint s1 with
    | (.error e, s2) => (.error e, s2)
    | (.ok ov, s2) =>
      match read_varint s2 with
      | (.error e, s3) => (.error e, s3)
      | (.ok _, s3) =>
        match read_varint s3 with
        | (.error e, s4) => (.error e, s4)
        | (.ok bucket, s4) =>
          match read_varint s4 with
          | (.error e, s5) => (.error e, s5)
          | (.ok _, s5) =>
            match read_varint s5 with
            | (.error e, s6) => (.error e, s6)
            | (.ok num_temp_tables, s6) =>
              match skipStrings num_temp_tables s6 with
              | (.error e, s7) => (.error e, s7)
              | (.ok _, s7) =>
                match read_varint s7 with
                | (.error e, s8) => (.error e, s8)
                | (.ok num_columns, s8) =>
                  match read_varint s8 with
                  | (.error e, s9) => (.error e, s9)
                  | (.ok num_rows, s9) =>
                    match readColPairs num_columns s9 with
                    | (.error e, s10) => (.error e, s10)
                    | (.ok (names, types), s10) =>
                      (.ok (⟨ov != 0, bucket⟩, names, types, num_rows), s10)

/-- The per-row column loop of read_block: one value per zipped
(name, type) pair, inserted into the row dict; any failure while reading a
column value is wrapped into a ProtocolError carrying the column name and
type. -/
def readRow (cols : List (List Nat × List Nat)) (row : Row) (s : List Nat) :
    Except PyErr Row × List Nat :=
  match cols with
  | [] => (.ok row, s)
  | (col_name, col_type) :: rest =>
    match read_column_data s col_type with
    | (.ok value, s1) =>
      readRow rest (pyDictInsert (fun a b => a == b) row col_name value) s1
    | (.error _, s1) => (.error (.protocolError col_name col_type), s1)

/-- The row loop of read_block: num_rows rows in order. -/
def readRowsN (cols : List (List Nat × List Nat)) (n : Nat) (s : List Nat) :
    Except PyErr (List Row) × List Nat :=
  match n with
  | 0 => (.ok [], s)
  | m + 1 =>
    match readRow cols [] s with
    | (.ok row, s1) =>
      match readRowsN cols m s1 with
      | (.ok rows, s2) => (.ok (row :: rows), s2)
      | (.error e, s2) => (.error e, s2)
    | (.error e, s1) => (.error e, s1)

/-- query.read_block: header then rows, with the whole body guarded by
except EOFError returning an empty default Block.  Row-phase failures are
always ProtocolError (the per-column handler converts any error, EOFError
included), so the EOFError branch after the rows is unreachable but kept to
mirror the catch structure. -/
def read_block (s : List Nat) : Except PyErr Block × List Nat :=
  match readBlockHeader s with
  | (.error .eof, s1) => (.ok ⟨[], [], [], {}⟩, s1)
  | (.error e, s1) => (.error e, s1)
  | (.ok (info, column_names, column_types, num_rows), s1) =>
    match readRowsN (column_names.zip column_types) num_rows s1 with
    | (.ok rows, s2) => (.ok ⟨column_names, column_types, rows, info⟩, s2)
    | (.error .eof, s2) => (.ok ⟨[], [], [], {}⟩, s2)
    | (.error e, s2) => (.error e, s2)

theorem skipStrings_mono (n : Nat) : ∀ s : List Nat,
    ((skipStrings n s).2).length ≤ s.length := by
  induction n with
  | zero => intro s; simp [skipStrings]
  | succ m ih =>
    intro s
    rcases h : read_string s with ⟨res, s1⟩
    have hm : s1.length ≤ s.length := by
      have := read_string_mono s; rw [h] at this; exact this
    cases res with
    | error e => simp only [skipStrings, h]; exact hm
    | ok u => simp only [skipStrings, h]; exact Nat.le_trans (ih s1) hm

theorem readColPairs_mono (n : Nat) : ∀ s : List Nat,
    ((readColPairs n s).2).length ≤ s.length := by
  induction n with
  | zero => intro s; simp [readColPairs]
  | succ m ih =>
    intro s
    rcases h : read_string s with ⟨res, s1⟩
    have hm : s1.length ≤ s.length := by
      have := read_string_mono s; rw [h] at this; exact this
    cases res with
    | error e => simp only [readColPairs, h]; exact hm
    | ok column_name =>
      rcases h2 : read_string s1 with ⟨res2, s2⟩
      have hm2 : s2.length ≤ s1.length := by
        have := read_string_mono s1; rw [h2] at this; exact this
      cases res2 with
      | error e => simp only [readColPairs, h, h2]; exact Nat.le_trans hm2 hm
      | ok column_type =>
        rcases h3 : readColPairs m s2 with ⟨res3, s3⟩
        have hm3 : s3.length ≤ s2.length := by
          have := ih s2; rw [h3] at this; exact this
        rcases res3 with ⟨names, types⟩ | e <;>
          simp only [readColPairs, h, h2, h3] <;>
          exact Nat.le_trans hm3 (Nat.le_trans hm2 hm)

theorem read_column_data_mono (s : List Nat) (ct : List Nat) :
    ((read_column_data s ct).2).length ≤ s.length := by
  unfold read_column_data
  rcases h : DataType.create ct with e | dt
  · simp [h]
  · simp only [h]
    exact read_value_mono dt s

theorem readRow_mono (cols : List (List Nat × List Nat)) :
    ∀ (row : Row) (s : List Nat), ((readRow cols row s).2).length ≤ s.length := by
  induction cols with
  | nil => intro row s; simp [readRow]
  | cons c rest ih =>
    intro row s
    rcases c with ⟨col_name, col_type⟩
    rcases h : read_column_data s col_type with ⟨res, s1⟩
    have hm : s1.length ≤ s.length := by
      have := read_column_data_mono s col_type; rw [h] at this; exact this
    cases res with
    | error e => simp only [readRow, h]; exact hm
    | ok value =>
      simp only [readRow, h]
      exact Nat.le_trans (ih _ s1) hm

theorem readRowsN_mono (cols : List (List Nat × List Nat)) (n : Nat) :
    ∀ s : List Nat, ((readRowsN cols n s).2).length ≤ s.length := by
  induction n with
  | zero => intro s; simp [readRowsN]
  | succ m ih =>
    intro s
    rcases h : readRow cols [] s with ⟨res, s1⟩
    have hm : s1.length ≤ s.length := by
      have := readRow_mono cols [] s; rw [h] at this; exact this
    cases res with
    | error e => simp only [readRowsN, h]; exact hm
    | ok row =>
      rcases h2 : readRowsN cols m s1 with ⟨res2, s2⟩
      have hm2 : s2.length ≤ s1.length := by
        have := ih s1; rw [h2] at this; exact this
      cases res2 <;> simp only [readRowsN, h, h2] <;> exact Nat.le_trans hm2 hm

theorem readBlockHeader_mono (s : List Nat) :
    ((readBlockHeader s).2).length ≤ s.length := by
  unfold readBlockHeader
  split
  next e s1 h1 =>
    have t : s1.length ≤ s.length := by
      have := read_varint_mono s; rw [h1] at this; exact this
    show s1.length ≤ s.length
    omega
  next v1 s1 h1 =>
    have m1 : s1.length ≤ s.length := by
      have := read_varint_mono s; rw [h1] at this; exact this
    split
    next e s2 h2 =>
      have t : s2.length ≤ s1.length := by
        have := read_varint_mono s1; rw [h2] at this; exact this
      show s2.length ≤ s.length
      omega
    next ov s2 h2 =>
      have m2 : s2.length ≤ s1.length := by
        have := read_varint_mono s1; rw [h2] at this; exact this
      split
      next e s3 h3 =>
        have t : s3.length ≤ s2.length := by
          have := read_varint_mono s2; rw [h3] at this; exact this
        show s3.length ≤ s.length
        omega
      next v3 s3 h3 =>
        have m3 : s3.length ≤ s2.length := by
          have := read_varint_mono s2; rw [h3] at this; exact this
        split
        next e s4 h4 =>
          have t : s4.length ≤ s3.length := by
            have := read_varint_mono s3; rw [h4] at this; exact this
          show s4.length ≤ s.length
          omega
        next bucket s4 h4 =>
          have m4 : s4.length ≤ s3.length := by
            have := read_varint_mono s3; rw [h4] at this; exact this
          split
          next e s5 h5 =>
            have t : s5.length ≤ s4.length := by
              have := read_varint_mono s4; rw [h5] at this; exact this
            show s5.length ≤ s.length
            omega
          next v5 s5 h5 =>
            have m5 : s5.length ≤ s4.length := by
              have := read_varint_mono s4; rw [h5] at this; exact this
            split
            next e s6 h6 =>
              have t : s6.length ≤ s5.length := by
                have := read_varint_mono s5; rw [h6] at this; exact this
              show s6.length ≤ s.length
              omega
            next ntt s6 h6 =>
              have m6 : s6.length ≤ s5.length := by
                have := read_varint_mono s5; rw [h6] at this; exact this
              split
              next e s7 h7 =>
                have t : s7.length ≤ s6.length := by
                  have := skipStrings_mono ntt s6; rw [h7] at this; exact this
                show s7.length ≤ s.length
                omega
              next u s7 h7 =>
                have m7 : s7.length ≤ s6.length := by
                  have := skipStrings_mono ntt s6; rw [h7] at this; exact this
                split
                next e s8 h8 =>
                  have t : s8.length ≤ s7.length := by
                    have := read_varint_mono s7; rw [h8] at this; exact this
                  show s8.length ≤ s.length
                  omega
                next num_columns s8 h8 =>
                  have m8 : s8.length ≤ s7.length := by
                    have := read_varint_mono s7; rw [h8] at this; exact this
                  split
                  next e s9 h9 =>
                    have t : s9.length ≤ s8.length := by
                      have := read_varint_mono s8; rw [h9] at this; exact this
                    show s9.length ≤ s.length
                    omega
                  next num_rows s9 h9 =>
                    have m9 : s9.length ≤ s8.length := by
                      have := read_varint_mono s8; rw [h9] at this; exact this
                    split
                    next e s10 h10 =>
                      have t : s10.length ≤ s9.length := by
                        have := readColPairs_mono num_columns s9; rw [h10] at this; exact this
                      show s10.length ≤ s.length
                      omega
                    next names types s10 h10 =>
                      have m10 : s10.length ≤ s9.length := by
                        have := readColPairs_mono num_columns s9; rw [h10] at this; exact this
                      show s10.length ≤ s.length
                      omega

theorem read_block_mono (s : List Nat) :
    ((read_block s).2).length ≤ s.length := by
  unfold read_block
  split
  next s1 h =>
    have t : s1.length ≤ s.length := by
      have := readBlockHeader_mono s; rw [h] at this; exact this
    show s1.length ≤ s.length
    exact t
  next e s1 h hne =>
    have t : s1.length ≤ s.length := by
      have := readBlockHeader_mono s; rw [hne] at this; exact this
    show s1.length ≤ s.length
    exact t
  next info names types num_rows s1 h =>
    have m1 : s1.length ≤ s.length := by
      have := readBlockHeader_mono s; rw [h] at this; exact this
    split
    next rows s2 h2 =>
      have t : s2.length ≤ s1.length := by
        have := readRowsN_mono (names.zip types) num_rows s1; rw [h2] at this; exact this
      show s2.length ≤ s.length
      omega
    next s2 h2 =>
      have t : s2.length ≤ s1.length := by
        have := readRowsN_mono (names.zip types) num_rows s1; rw [h2] at this; exact this
      show s2.length ≤ s.length
      omega
    next e s2 h2 hne =>
      have t : s2.length ≤ s1.length := by
        have := readRowsN_mono (names.zip types) num_rows s1; rw [hne] at this; exact this
      show s2.length ≤ s.length
      omega

-- Server packet codes (constants.py ServerCodes).
namespace ServerCodes
def HELLO : Nat := 0
def DATA : Nat := 1
def EXCEPTION : Nat := 2
def PROGRESS : Nat := 3
def PONG : Nat := 4
def END_OF_STREAM : Nat := 5
def PROFILE_INFO : Nat := 6
def TOTALS : Nat := 7
def EXTREMES : Nat := 8
def TABLES_STATUS : Nat := 9
def LOG : Nat := 10
def TABLE_COLUMNS : Nat := 11
def PROFILE_EVENTS : Nat := 12
end ServerCodes

-- Client packet codes (constants.py ClientCodes).
namespace ClientCodes
def HELLO : Nat := 0
def QUERY : Nat := 1
def DATA : Nat := 2
def CANCEL : Nat := 3
def PING : Nat := 4
end ClientCodes

-- Protocol revision thresholds (constants.py Protocol).
namespace Protocol
def MIN_REVISION_WITH_CLIENT_INFO : Nat := 54032
def MIN_REVISION_WITH_SERVER_TIMEZONE : Nat := 54058
def MIN_REVISION_WITH_QUOTA_KEY_IN_CLIENT_INFO : Nat := 54060
def MIN_REVISION_WITH_SERVER_DISPLAY_NAME : Nat := 54372
def MIN_REVISION_WITH_VERSION_PATCH : Nat := 54401
def MIN_REVISION_WITH_SERVER_LOGS : Nat := 54406
def MIN_REVISION_WITH_CLIENT_WRITE_INFO : Nat := 54420
def MIN_REVISION_WITH_SETTINGS_SERIALIZED_AS_STRINGS : Nat := 54429
def DBMS_PROTOCOL_VERSION : Nat := 54429
end Protocol

/-- query.QueryResult.  The source stores elapsed_seconds as the raw
PROFILE_INFO varint divided by 1000.0 (a float); the undivided varint is
kept here since float arithmetic is not modelled and no claim inspects
it. -/
structure QueryResult where
  blocks : List Block := []
  totals : Option Block := none
  extremes : Option Block := none
  exception : Option RemoteServerError := none
  progress_rows : Nat := 0
  progress_bytes : Nat := 0
  progress_total_rows : Nat := 0
  elapsed_varint : Nat := 0
  rows_read : Nat := 0
  bytes_read : Nat := 0
deriving Repr

/-- QueryResult.rows: all rows of all DATA blocks, flattened in block
order (totals and extremes blocks are stored separately and not
included). -/
def QueryResult.rows (qr : QueryResult) : List Row :=
  qr.blocks.flatMap Block.rows

/-- QueryResult.has_exception. -/
def QueryResult.has_exception (qr : QueryResult) : Bool :=
  qr.exception.isSome

/-- The DATA branch of Connection.receive_packet: skip the temporary table
name string, read a block, append it to the result; an EOFError anywhere is
the enclosing except-EOFError returning False with the result as mutated so
far. -/
def handle_data (qr : QueryResult) (s : List Nat) :
    Except PyErr (Bool × QueryResult) × List Nat :=
  match read_string s with
  | (.error .eof, s1) => (.ok (false, qr), s1)
  | (.error e, s1) => (.error e, s1)
  | (.ok _, s1) =>
    match read_block s1 with
    | (.ok block, s2) =>
      (.ok (true, { qr with blocks := qr.blocks ++ [block] }), s2)
    | (.error .eof, s2) => (.ok (false, qr), s2)
    | (.error e, s2) => (.error e, s2)

/-- The EXCEPTION branch of Connection.receive_packet: decode the remote
error (read_exception never fails) and store it; returns False. -/
def handle_exception (qr : QueryResult) (s : List Nat) :
    Except PyErr (Bool × QueryResult) × List Nat :=
  match read_exception s with
  | (exc, s1) => (.ok (false, { qr with exception := some exc }), s1)

/-- The PROGRESS branch of Connection.receive_packet: three varints
assigned one at a time, so fields read before an EOFError keep their new
values when the except-EOFError handler returns False. -/
def handle_progress (qr : QueryResult) (s : List Nat) :
    Except PyErr (Bool × QueryResult) × List Nat :=
  match read_varint s with
  | (.error .eof, s1) => (.ok (false, qr), s1)
  | (.error e, s1) => (.error e, s1)
  | (.ok pr, s1) =>
    match read_varint s1 with
    | (.error .eof, s2) => (.ok (false, { qr with progress_rows := pr }), s2)
    | (.error e, s2) => (.error e, s2)
    | (.ok pb, s2) =>
      match read_varint s2 with
      | (.error .eof, s3) =>
        (.ok (false, { qr with progress_rows := pr, progress_bytes := pb }), s3)
      | (.error e, s3) => (.error e, s3)
      | (.ok pt, s3) =>
        (.ok (true,
          { qr with
            progress_rows := pr, progress_bytes := pb,
            progress_total_rows := pt }), s3)

/-- The PROFILE_INFO branch of Connection.receive_packet: rows_read,
bytes_read, then the elapsed varint (divided by 1000.0 in the source). -/
def handle_profile_info (qr : QueryResult) (s : List Nat) :
    Except PyErr (Bool × QueryResult) × List Nat :=
  match read_varint s with
  | (.error .eof, s1) => (.ok (false, qr), s1)
  | (.error e, s1) => (.error e, s1)
  | (.ok rr, s1) =>
    match read_varint s1 with
    | (.error .eof, s2) => (.ok (false, { qr with rows_read := rr }), s2)
    | (.error e, s2) => (.error e, s2)
    | (.ok br, s2) =>
      match read_varint s2 with
      | (.error .eof, s3) =>
        (.ok (false, { qr with rows_read := rr, bytes_read := br }), s3)
      | (.error e, s3) => (.error e, s3)
      | (.ok el, s3) =>
        (.ok (true,
          { qr with
            rows_read := rr, bytes_read := br,
            elapsed_varint := el }), s3)

/-- The TOTALS branch of Connection.receive_packet: skip the temporary
table name, read a block, store it as totals. -/
def handle_totals (qr : QueryResult) (s : List Nat) :
    Except PyErr (Bool × QueryResult) × List Nat :=
  match read_string s with
  | (.error .eof, s1) => (.ok (false, qr), s1)
  | (.error e, s1) => (.error e, s1)
  | (.ok _, s1) =>
    match read_block s1 with
    | (.ok block, s2) => (.ok (true, { qr with totals := some block }), s2)
    | (.error .eof, s2) => (.ok (false, qr), s2)
    | (.error e, s2) => (.error e, s2)

/-- The EXTREMES branch of Connection.receive_packet. -/
def handle_extremes (qr : QueryResult) (s : List Nat) :
    Except PyErr (Bool × QueryResult) × List Nat :=
  match read_string s with
  | (.error .eof, s1) => (.ok (false, qr), s1)
  | (.error e, s1) => (.error e, s1)
  | (.ok _, s1) =>
    match read_block s1 with
    | (.ok block, s2) => (.ok (true, { qr with extremes := some block }), s2)
    | (.error .eof, s2) => (.ok (false, qr), s2)
    | (.error e, s2) => (.error e, s2)

/-- The packet-code dispatch of Connection.receive_packet, after the packet
type varint has been read: the elif chain in source order (DATA, EXCEPTION,
PROGRESS, PROFILE_INFO, TOTALS, EXTREMES, END_OF_STREAM, PONG, unknown). -/
def handle_packet (packet_type : Nat) (qr : QueryResult) (s : List Nat) :
    Except PyErr (Bool × QueryResult) × List Nat :=
  if packet_type = ServerCodes.DATA then handle_data qr s
  else if packet_type = ServerCodes.EXCEPTION then handle_exception qr s
  else if packet_type = ServerCodes.PROGRESS then handle_progress qr s
  else if packet_type = ServerCodes.PROFILE_INFO then handle_profile_info qr s
  else if packet_type = ServerCodes.TOTALS then handle_totals qr s
  else if packet_type = ServerCodes.EXTREMES then handle_extremes qr s
  else if packet_type = ServerCodes.END_OF_STREAM then (.ok (false, qr), s)
  else if packet_type = ServerCodes.PONG then (.ok (true, qr), s)
  else (.ok (true, qr), s)

/-- Connection.receive_packet: read the packet type varint and dispatch;
the whole body is wrapped in except-EOFError returning False (the server
closed the connection), which for the packet-type read itself is the
graceful end-of-stream termination of the packet loop. -/
def receive_packet (qr : QueryResult) (s : List Nat) :
    Except PyErr (Bool × QueryResult) × List Nat :=
  match read_varint s with
  | (.error .eof, s1) => (.ok (false, qr), s1)
  | (.error e, s1) => (.error e, s1)
  | (.ok packet_type, s1) => handle_packet packet_type qr s1

theorem handle_data_mono (qr : QueryResult) (s : List Nat) :
    ((handle_data qr s).2).length ≤ s.length := by
  unfold handle_data
  split
  next s1 heq =>
    have t : s1.length ≤ s.length := by
      have := read_string_mono s; rw [heq] at this; exact this
    show s1.length ≤ s.length
    exact t
  next e s1 h hne =>
    have t : s1.length ≤ s.length := by
      have := read_string_mono s; rw [hne] at this; exact this
    show s1.length ≤ s.length
    exact t
  next tmp s1 heq =>
    have m1 : s1.length ≤ s.length := by
      have := read_string_mono s; rw [heq] at this; exact this
    split
    next block s2 heq2 =>
      have t : s2.length ≤ s1.length := by
        have := read_block_mono s1; rw [heq2] at this; exact this
      show s2.length ≤ s.length
      omega
    next s2 heq2 =>
      have t : s2.length ≤ s1.length := by
        have := read_block_mono s1; rw [heq2] at this; exact this
      show s2.length ≤ s.length
      omega
    next e s2 h hne =>
      have t : s2.length ≤ s1.length := by
        have := read_block_mono s1; rw [hne] at this; exact this
      show s2.length ≤ s.length
      omega

theorem handle_exception_mono (qr : QueryResult) (s : List Nat) :
    ((handle_exception qr s).2).length ≤ s.length := by
  unfold handle_exception
  rcases h : read_exception s with ⟨exc, s1⟩
  show s1.length ≤ s.length
  have := read_exception_mono s; rw [h] at this; exact this

theorem handle_progress_mono (qr : QueryResult) (s : List Nat) :
    ((handle_progress qr s).2).length ≤ s.length := by
  unfold handle_progress
  split
  next s1 heq =>
    have t : s1.length ≤ s.length := by
      have := read_varint_mono s; rw [heq] at this; exact this
    show s1.length ≤ s.length
    exact t
  next e s1 h hne =>
    have t : s1.length ≤ s.length := by
      have := read_varint_mono s; rw [hne] at this; exact this
    show s1.length ≤ s.length
    exact t
  next pr s1 heq =>
    have m1 : s1.length ≤ s.length := by
      have := read_varint_mono s; rw [heq] at this; exact this
    split
    next s2 heq2 =>
      have t : s2.length ≤ s1.length := by
        have := read_varint_mono s1; rw [heq2] at this; exact this
      show s2.length ≤ s.length
      omega
    next e s2 h hne =>
      have t : s2.length ≤ s1.length := by
        have := read_varint_mono s1; rw [hne] at this; exact this
      show s2.length ≤ s.length
      omega
    next pb s2 heq2 =>
      have m2 : s2.length ≤ s1.length := by
        have := read_varint_mono s1; rw [heq2] at this; exact this
      split
      next s3 heq3 =>
        have t : s3.length ≤ s2.length := by
          have := read_varint_mono s2; rw [heq3] at this; exact this
        show s3.length ≤ s.length
        omega
      next e s3 h hne =>
        have t : s3.length ≤ s2.length := by
          have := read_varint_mono s2; rw [hne] at this; exact this
        show s3.length ≤ s.length
        omega
      next pt s3 heq3 =>
        have m3 : s3.length ≤ s2.length := by
          have := read_varint_mono s2; rw [heq3] at this; exact this
        show s3.length ≤ s.length
        omega

theorem handle_profile_info_mono (qr : QueryResult) (s : List Nat) :
    ((handle_profile_info qr s).2).length ≤ s.length := by
  unfold handle_profile_info
  split
  next s1 heq =>
    have t : s1.length ≤ s.length := by
      have := read_varint_mono s; rw [heq] at this; exact this
    show s1.length ≤ s.length
    exact t
  next e s1 h hne =>
    have t : s1.length ≤ s.length := by
      have := read_varint_mono s; rw [hne] at this; exact this
    show s1.length ≤ s.length
    exact t
  next rr s1 heq =>
    have m1 : s1.length ≤ s.length := by
      have := read_varint_mono s; rw [heq] at this; exact this
    split
    next s2 heq2 =>
      have t : s2.length ≤ s1.length := by
        have := read_varint_mono s1; rw [heq2] at this; exact this
      show s2.length ≤ s.length
      omega
    next e s2 h hne =>
      have t : s2.length ≤ s1.length := by
        have := read_varint_mono s1; rw [hne] at this; exact this
      show s2.length ≤ s.length
      omega
    next br s2 heq2 =>
      have m2 : s2.length ≤ s1.length := by
        have := read_varint_mono s1; rw [heq2] at this; exact this
      split
      next s3 heq3 =>
        have t : s3.length ≤ s2.length := by
          have := read_varint_mono s2; rw [heq3] at this; exact this
        show s3.length ≤ s.length
        omega
      next e s3 h hne =>
        have t : s3.length ≤ s2.length := by
          have := read_varint_mono s2; rw [hne] at this; exact this
        show s3.length ≤ s.length
        omega
      next el s3 heq3 =>
        have m3 : s3.length ≤ s2.length := by
          have := read_varint_mono s2; rw [heq3] at this; exact this
        show s3.length ≤ s.length
        omega

theorem handle_totals_mono (qr : QueryResult) (s : List Nat) :
    ((handle_totals qr s).2).length ≤ s.length := by
  unfold handle_totals
  split
  next s1 heq =>
    have t : s1.length ≤ s.length := by
      have := read_string_mono s; rw [heq] at this; exact this
    show s1.length ≤ s.length
    exact t
  next e s1 h hne =>
    have t : s1.length ≤ s.length := by
      have := read_string_mono s; rw [hne] at this; exact this
    show s1.length ≤ s.length
    exact t
  next tmp s1 heq =>
    have m1 : s1.length ≤ s.length := by
      have := read_string_mono s; rw [heq] at this; exact this
    split
    next block s2 heq2 =>
      have t : s2.length ≤ s1.length := by
        have := read_block_mono s1; rw [heq2] at this; exact this
      show s2.length ≤ s.length
      omega
    next s2 heq2 =>
      have t : s2.length ≤ s1.length := by
        have := read_block_mono s1; rw [heq2] at this; exact this
      show s2.length ≤ s.length
      omega
    next e s2 h hne =>
      have t : s2.length ≤ s1.length := by
        have := read_block_mono s1; rw [hne] at this; exact this
      show s2.length ≤ s.length
      omega

theorem handle_extremes_mono (qr : QueryResult) (s : List Nat) :
    ((handle_extremes qr s).2).length ≤ s.length := by
  unfold handle_extremes
  split
  next s1 heq =>
    have t : s1.length ≤ s.length := by
      have := read_string_mono s; rw [heq] at this; exact this
    show s1.length ≤ s.length
    exact t
  next e s1 h hne =>
    have t : s1.length ≤ s.length := by
      have := read_string_mono s; rw [hne] at this; exact this
    show s1.length ≤ s.length
    exact t
  next tmp s1 heq =>
    have m1 : s1.length ≤ s.length := by
      have := read_string_mono s; rw [heq] at this; exact this
    split
    next block s2 heq2 =>
      have t : s2.length ≤ s1.length := by
        have := read_block_mono s1; rw [heq2] at this; exact this
      show s2.length ≤ s.length
      omega
    next s2 heq2 =>
      have t : s2.length ≤ s1.length := by
        have := read_block_mono s1; rw [heq2] at this; exact this
      show s2.length ≤ s.length
      omega
    next e s2 h hne =>
      have t : s2.length ≤ s1.length := by
        have := read_block_mono s1; rw [hne] at this; exact this
      show s2.length ≤ s.length
      omega

theorem handle_packet_mono (packet_type : Nat) (qr : QueryResult) (s : List Nat) :
    ((handle_packet packet_type qr s).2).length ≤ s.length := by
  unfold handle_packet
  repeat' split
  all_goals first
    | exact handle_data_mono qr s
    | exact handle_exception_mono qr s
    | exact handle_progress_mono qr s
    | exact handle_profile_info_mono qr s
    | exact handle_totals_mono qr s
    | exact handle_extremes_mono qr s
    | exact Nat.le_refl _

theorem receive_packet_continue_lt {qr : QueryResult} {s : List Nat}
    {qr' : QueryResult} {s' : List Nat}
    (h : receive_packet qr s = (.ok (true, qr'), s')) : s'.length < s.length := by
  unfold receive_packet at h
  split at h
  next s1 heq => simp at h
  next e s1 hno heq => simp at h
  next pt s1 heq =>
    have h1 : s1.length < s.length := read_varint_ok_lt heq
    have h2 : s'.length ≤ s1.length := by
      have := handle_packet_mono pt qr s1; rw [h] at this; exact this
    omega

/-- The packet loop of Connection.execute_query:
while await self.receive_packet(): pass.  Terminates because a continuing
iteration always consumes at least the packet-type byte
(receive_packet_continue_lt); errors other than EOFError propagate. -/
def processPackets (qr : QueryResult) (s : List Nat) :
    Except PyErr QueryResult × List Nat :=
  match h : receive_packet qr s with
  | (.ok (true, qr'), s') => processPackets qr' s'
  | (.ok (false, qr'), s') => (.ok qr', s')
  | (.error e, s') => (.error e, s')
termination_by s.length
decreasing_by exact receive_packet_continue_lt h

/-- The receive phase of Connection.execute_query over a scripted byte
stream: a fresh QueryResult, the packet loop, then raise the stored
exception if any (has_exception is exactly exception.isSome), else return
the accumulated rows.  The error side separates exceptions the loop
propagates (.inl, a ProtocolError from a column decode) from the stored
RemoteServerError the source re-raises (.inr). -/
def execute_query_recv (s : List Nat) :
    Except (Sum PyErr RemoteServerError) (List Row) :=
  match processPackets {} s with
  | (.error e, _) => .error (.inl e)
  | (.ok qr, _) =>
    match qr.exception with
    | some exc => .error (.inr exc)
    | none => .ok qr.rows

/-- connection.ServerInfo with its constructor defaults: empty strings and
zero numbers. -/
structure ServerInfo where
  name : List Nat := []
  version_major : Nat := 0
  version_minor : Nat := 0
  version_patch : Nat := 0
  revision : Nat := 0
  timezone : List Nat := []
  display_name : List Nat := []
deriving DecidableEq, Repr

/-- The last revision-gated read of Connection.receive_hello: version patch
if revision ≥ MIN_REVISION_WITH_VERSION_PATCH. -/
def hello_read_patch (si : ServerInfo) (s : List Nat) :
    Except PyErr ServerInfo × List Nat :=
  if si.revision ≥ Protocol.MIN_REVISION_WITH_VERSION_PATCH then
    match read_varint s with
    | (.error e, s1) => (.error e, s1)
    | (.ok patch, s1) => (.ok { si with version_patch := patch }, s1)
  else (.ok si, s)

/-- Display name if revision ≥ MIN_REVISION_WITH_SERVER_DISPLAY_NAME, then
the patch gate. -/
def hello_read_display_name (si : ServerInfo) (s : List Nat) :
    Except PyErr ServerInfo × List Nat :=
  if si.revision ≥ Protocol.MIN_REVISION_WITH_SERVER_DISPLAY_NAME then
    match read_string s with
    | (.error e, s1) => (.error e, s1)
    | (.ok dn, s1) => hello_read_patch { si with display_name := dn } s1
  else hello_read_patch si s

/-- Timezone if revision ≥ MIN_REVISION_WITH_SERVER_TIMEZONE, then the
display-name gate. -/
def hello_read_timezone (si : ServerInfo) (s : List Nat) :
    Except PyErr ServerInfo × List Nat :=
  if si.revision ≥ Protocol.MIN_REVISION_WITH_SERVER_TIMEZONE then
    match read_string s with
    | (.error e, s1) => (.error e, s1)
    | (.ok tz, s1) => hello_read_display_name { si with timezone := tz } s1
  else hello_read_display_name si s

/-- Connection.receive_hello: packet type, then on HELLO the server name,
version major/minor and revision varints, then the three revision-gated
optional fields in order (the gates are the sequential ifs of the source,
split here into one definition per gate).  An EXCEPTION packet or any other
code raises ConnectionError; the source interpolates the decoded exception
into the message, which is not reproduced. -/
def receive_hello (si : ServerInfo) (s : List Nat) :
    Except PyErr ServerInfo × List Nat :=
  match read_varint s with
  | (.error e, s1) => (.error e, s1)
  | (.ok packet_type, s1) =>
    if packet_type = ServerCodes.HELLO then
      match read_string s1 with
      | (.error e, s2) => (.error e, s2)
      | (.ok name, s2) =>
        match read_varint s2 with
        | (.error e, s3) => (.error e, s3)
        | (.ok vmaj, s3) =>
          match read_varint s3 with
          | (.error e, s4) => (.error e, s4)
          | (.ok vmin, s4) =>
            match read_varint s4 with
            | (.error e, s5) => (.error e, s5)
            | (.ok revision, s5) =>
              hello_read_timezone
                { si with
                  name := name, version_major := vmaj,
                  version_minor := vmin, revision := revision } s5
    else if packet_type = ServerCodes.EXCEPTION then
      match read_exception s1 with
      | (_, s2) => (.error .connectionError, s2)
    else (.error .connectionError, s1)

/-- Connection.ping.  The two Booleans stand for the two failure sources
outside the scripted input bytes: `connected` is the presence of both
streams (self.output_stream and self.input_stream), and `send_ok` is
whether the PING write/flush on the transport succeeds (a raise there is
swallowed by the except clause).  The reply read succeeds exactly when the
scripted bytes yield a varint; the result is the comparison against PONG,
and every failure path returns false rather than propagating. -/
def ping (connected : Bool) (send_ok : Bool) (s : List Nat) : Bool :=
  if !connected then false
  else if !send_ok then false
  else
    match read_varint s with
    | (.ok packet_type, _) => packet_type == ServerCodes.PONG
    | (.error _, _) => false

/-- InputStream.read over the chunked transport (stream.py): the state is
(buffer, avail) where `buffer` is the internal bytearray and `avail` the
bytes the transport will still deliver before end-of-stream;
socket.receive(m) returns the next min(m, remaining) bytes and b"" at
end-of-stream.  When the transport ends before n bytes accumulate, the
source raises EOFError (the buffer keeps the partial bytes); the short
bytes are never returned. -/
def isRead (n : Nat) (buffer : List Nat) (avail : List Nat) :
    Except PyErr (List Nat) × (List Nat × List Nat) :=
  if buffer.length ≥ n then (.ok (buffer.take n), (buffer.drop n, avail))
  else
    if (avail.take (max (n - buffer.length) 4096)).isEmpty then
      if n > 0 then (.error .eof, (buffer, avail))
      else (.ok [], (buffer, avail))
    else isRead n (buffer ++ avail.take (max (n - buffer.length) 4096))
      (avail.drop (max (n - buffer.length) 4096))
termination_by avail.length
decreasing_by
  rename_i hlt hne
  have ha : avail ≠ [] := by
    intro hnil
    rw [hnil] at hne
    simp at hne
  have hpos : 0 < avail.length := List.length_pos.mpr ha
  have hk : 0 < max (n - buffer.length) 4096 := by omega
  simp only [List.length_drop]
  omega

/-- InputStream.read_exactly over the chunked transport: delegate to read,
then fail if fewer than n bytes came back (dead code, since read already
raises). -/
def read_exactly_is (n : Nat) (buffer : List Nat) (avail : List Nat) :
    Except PyErr (List Nat) × (List Nat × List Nat) :=
  match isRead n buffer avail with
  | (.ok data, st) => if data.length < n then (.error .eof, st) else (.ok data, st)
  | (.error e, st) => (.error e, st)

/-- Int8Type.write_value: negative values have 256 added before the varint
write (the Python int is non-negative afterwards for in-contract inputs;
toNat reflects that). -/
def int8_write (value : Int) : List Nat :=
  write_varint (if value < 0 then value + 256 else value).toNat

/-- Int16Type.write_value. -/
def int16_write (value : Int) : List Nat :=
  write_varint (if value < 0 then value + 65536 else value).toNat

/-- Int32Type.write_value. -/
def int32_write (value : Int) : List Nat :=
  write_varint (if value < 0 then value + 4294967296 else value).toNat

/-- Int64Type.write_value. -/
def int64_write (value : Int) : List Nat :=
  write_varint (if value < 0 then value + 18446744073709551616 else value).toNat

/-- Wire encoding of a length-prefixed string
(WireFormat.write_binary_string). -/
def encStr (b : List Nat) : List Nat := write_varint b.length ++ b

/-- Scripted server HELLO packet bytes for the handshake scenarios: HELLO
code, name, version major/minor, revision, then exactly the optional fields
the announced revision admits (the same fixed thresholds the reader
uses). -/
def encodeHello (name : List Nat) (vmaj vmin revision : Nat)
    (tz dn : List Nat) (patch : Nat) : List Nat :=
  write_varint ServerCodes.HELLO ++ encStr name ++ write_varint vmaj
    ++ write_varint vmin ++ write_varint revision
    ++ (if revision ≥ Protocol.MIN_REVISION_WITH_SERVER_TIMEZONE
        then encStr tz else [])
    ++ (if revision ≥ Protocol.MIN_REVISION_WITH_SERVER_DISPLAY_NAME
        then encStr dn else [])
    ++ (if revision ≥ Protocol.MIN_REVISION_WITH_VERSION_PATCH
        then write_varint patch else [])

theorem read_varint_write (n : Nat) (rest : List Nat) :
    read_varint (write_varint n ++ rest) = (.ok n, rest) := by
  unfold read_varint
  have h := readVarintAux_write n 0 0 rest (by norm_num)
  simpa using h

theorem read_string_enc (b rest : List Nat) :
    read_string (encStr b ++ rest) = (.ok b, rest) := by
  unfold read_string encStr
  rw [List.append_assoc]
  simp only [read_varint_write]
  unfold readN
  rw [if_pos (by simp)]
  rw [List.take_left, List.drop_left]

/-- C2: encoding any non-negative integer with write_varint and decoding
the produced bytes with read_varint returns exactly that integer (with any
trailing bytes untouched); the boundary values named in the spec are
instances of the universally quantified statement. -/
theorem varint_roundtrip (n : Nat) (rest : List Nat) :
    read_varint (write_varint n ++ rest) = (.ok n, rest) :=
  read_varint_write n rest

/-- C3: for each signed width, every in-range value round-trips through the
IntwType codec: writing adds the width's modulus to negative values before
the varint, and reading subtracts it from magnitudes at or above half the
range. -/
theorem signed_int_roundtrip (v : Int) (rest : List Nat) :
    (-128 ≤ v ∧ v < 128 →
      DataType.read_value .int8 (int8_write v ++ rest) = (.ok (.int v), rest)) ∧
    (-32768 ≤ v ∧ v < 32768 →
      DataType.read_value .int16 (int16_write v ++ rest) = (.ok (.int v), rest)) ∧
    (-2147483648 ≤ v ∧ v < 2147483648 →
      DataType.read_value .int32 (int32_write v ++ rest) = (.ok (.int v), rest)) ∧
    (-9223372036854775808 ≤ v ∧ v < 9223372036854775808 →
      DataType.read_value .int64 (int64_write v ++ rest) = (.ok (.int v), rest)) := by
  refine ⟨fun h => ?_, fun h => ?_, fun h => ?_, fun h => ?_⟩
  · unfold int8_write
    simp only [DataType.read_value, read_varint_write]
    by_cases hv : v < 0
    · rw [if_pos hv]
      have h1 : (0 : Int) ≤ v + 256 := by omega
      have h2 : (v + 256).toNat = v.toNat + 256 ∨ True := Or.inr trivial
      have h3 : ((v + 256).toNat : Int) = v + 256 := Int.toNat_of_nonneg h1
      have h4 : ¬((v + 256).toNat < 128) := by omega
      rw [if_neg h4]
      have h5 : (((v + 256).toNat : Nat) : Int) - 256 = v := by omega
      rw [h5]
    · rw [if_neg hv]
      have h1 : (0 : Int) ≤ v := by omega
      have h3 : ((v).toNat : Int) = v := Int.toNat_of_nonneg h1
      have h4 : v.toNat < 128 := by omega
      rw [if_pos h4, h3]
  · unfold int16_write
    simp only [DataType.read_value, read_varint_write]
    by_cases hv : v < 0
    · rw [if_pos hv]
      have h1 : (0 : Int) ≤ v + 65536 := by omega
      have h3 : ((v + 65536).toNat : Int) = v + 65536 := Int.toNat_of_nonneg h1
      have h4 : ¬((v + 65536).toNat < 32768) := by omega
      rw [if_neg h4]
      have h5 : (((v + 65536).toNat : Nat) : Int) - 65536 = v := by omega
      rw [h5]
    · rw [if_neg hv]
      have h1 : (0 : Int) ≤ v := by omega
      have h3 : ((v).toNat : Int) = v := Int.toNat_of_nonneg h1
      have h4 : v.toNat < 32768 := by omega
      rw [if_pos h4, h3]
  · unfold int32_write
    simp only [DataType.read_value, read_varint_write]
    by_cases hv : v < 0
    · rw [if_pos hv]
      have h1 : (0 : Int) ≤ v + 4294967296 := by omega
      have h3 : ((v + 4294967296).toNat : Int) = v + 4294967296 :=
        Int.toNat_of_nonneg h1
      have h4 : ¬((v + 4294967296).toNat < 2147483648) := by omega
      rw [if_neg h4]
      have h5 : (((v + 4294967296).toNat : Nat) : Int) - 4294967296 = v := by omega
      rw [h5]
    · rw [if_neg hv]
      have h1 : (0 : Int) ≤ v := by omega
      have h3 : ((v).toNat : Int) = v := Int.toNat_of_nonneg h1
      have h4 : v.toNat < 2147483648 := by omega
      rw [if_pos h4, h3]
  · unfold int64_write
    simp only [DataType.read_value, read_varint_write]
    by_cases hv : v < 0
    · rw [if_pos hv]
      have h1 : (0 : Int) ≤ v + 18446744073709551616 := by omega
      have h3 : ((v + 18446744073709551616).toNat : Int) =
          v + 18446744073709551616 := Int.toNat_of_nonneg h1
      have h4 : ¬((v + 18446744073709551616).toNat < 9223372036854775808) := by
        omega
      rw [if_neg h4]
      have h5 : (((v + 18446744073709551616).toNat : Nat) : Int) - 18446744073709551616 = v := by omega
      rw [h5]
    · rw [if_neg hv]
      have h1 : (0 : Int) ≤ v := by omega
      have h3 : ((v).toNat : Int) = v := Int.toNat_of_nonneg h1
      have h4 : v.toNat < 9223372036854775808 := by omega
      rw [if_pos h4, h3]

/-- Witness for C3 at the concrete value −1 for each of the four widths. -/
theorem signed_int_roundtrip_witness :
    DataType.read_value .int8 (int8_write (-1) ++ []) = (.ok (.int (-1)), []) ∧
    DataType.read_value .int16 (int16_write (-1) ++ []) = (.ok (.int (-1)), []) ∧
    DataType.read_value .int32 (int32_write (-1) ++ []) = (.ok (.int (-1)), []) ∧
    DataType.read_value .int64 (int64_write (-1) ++ []) = (.ok (.int (-1)), []) :=
  ⟨(signed_int_roundtrip (-1) []).1 (by norm_num),
   (signed_int_roundtrip (-1) []).2.1 (by norm_num),
   (signed_int_roundtrip (-1) []).2.2.1 (by norm_num),
   (signed_int_roundtrip (-1) []).2.2.2 (by norm_num)⟩

theorem isRead_short_eof (n : Nat) (buffer avail : List Nat)
    (h : buffer.length + avail.length < n) :
    isRead n buffer avail = (.error .eof, (buffer ++ avail, [])) := by
  cases avail with
  | nil =>
    rw [isRead]
    rw [if_neg (by simp at h ⊢; omega)]
    simp only [List.take_nil, List.isEmpty_nil, if_true]
    rw [if_pos (by simp at h; omega)]
    simp
  | cons a rest =>
    rw [isRead]
    rw [if_neg (by simp at h ⊢; omega)]
    have hK : (a :: rest).length ≤ max (n - buffer.length) 4096 := by
      simp at h ⊢; omega
    rw [List.take_of_length_le hK, List.drop_eq_nil_of_le hK]
    rw [if_neg (by simp)]
    rw [isRead]
    rw [if_neg (by simp at h ⊢; omega)]
    simp only [List.take_nil, List.isEmpty_nil, if_true]
    rw [if_pos (by simp at h; omega)]

/-- C4 counterexample: the claim as stated is false on the code.  With a
transport that delivers a single byte 7 before ending, InputStream.read(2)
does not return the short result b"\x07"; it raises EOFError (and the
buffer keeps the byte). -/
theorem isRead_short_counterexample :
    isRead 2 [] [7] = (.error .eof, ([7], [])) :=
  isRead_short_eof 2 [] [7] (by norm_num)

/-- C4 (amended): for every n > 0 and every transport stream that delivers
only k < n bytes before ending, InputStream.read(n) fails with an
end-of-stream error (rather than returning the k bytes), and
read_exactly(n) on the same stream fails with an end-of-stream error as
well. -/
theorem read_short_stream_eof (n : Nat) (avail : List Nat)
    (hn : 0 < n) (hshort : avail.length < n) :
    (isRead n [] avail).1 = .error .eof ∧
    (read_exactly_is n [] avail).1 = .error .eof := by
  have h := isRead_short_eof n [] avail (by simpa using hshort)
  constructor
  · rw [h]
  · unfold read_exactly_is
    simp only [h]

/-- Witness for C4 (amended) at n = 2 against the one-byte transport. -/
theorem read_short_stream_eof_witness :
    (isRead 2 [] [7]).1 = .error .eof ∧
    (read_exactly_is 2 [] [7]).1 = .error .eof :=
  read_short_stream_eof 2 [7] (by norm_num) (by norm_num)

set_option maxHeartbeats 2000000 in
/-- C5: DataType.create on the nested descriptor
"Array(Nullable(Map(String, Tuple(UInt8, Float32))))" builds the codec tree
Array → Nullable → Map(String, Tuple(UInt8, Float32)) with the correct
nesting at every level. -/
theorem create_nested_descriptor :
    DataType.create (strBytes "Array(Nullable(Map(String, Tuple(UInt8, Float32))))")
      = .ok (.array (.nullable (.map .string (.tuple [.uint8, .float32])))) := by
  simp +decide [DataType.create, createList, parse_tuple_types, ptAux, pyStrip,
    pyStripChars, parse_map_types, strBytes]

set_option maxHeartbeats 2000000 in
/-- C6: the argument splitter splits only on commas at parenthesis-nesting
depth zero (the spec's example splits into exactly its two arguments), and
the two-argument Map parser fails with the codec-creation ValueError
whenever the top-level argument count differs from two — in particular on
"String, UInt8, Int8", both directly and through DataType.create on
"Map(String, UInt8, Int8)". -/
theorem map_arity_and_splitting :
    parse_tuple_types (strBytes "UInt8, Tuple(Int8, Int16)") =
        [strBytes "UInt8", strBytes "Tuple(Int8, Int16)"] ∧
    (∀ s : List Nat, (parse_tuple_types s).length ≠ 2 →
        parse_map_types s =
          .error (.valueError (strBytes "Invalid map type: " ++ s))) ∧
    parse_map_types (strBytes "String, UInt8, Int8") =
        .error (.valueError
          (strBytes "Invalid map type: " ++ strBytes "String, UInt8, Int8")) ∧
    DataType.create (strBytes "Map(String, UInt8, Int8)") =
        .error (.valueError
          (strBytes "Invalid map type: " ++ strBytes "String, UInt8, Int8")) := by
  refine ⟨by rfl, ?_, by rfl, ?_⟩
  · intro s hlen
    unfold parse_map_types
    split
    next k v heq => rw [heq] at hlen; simp at hlen
    next heq => rfl
  · simp +decide [DataType.create, createList, parse_tuple_types, ptAux,
      pyStrip, pyStripChars, parse_map_types, strBytes]

/-- Witness for C6: the universally quantified Map-arity conjunct applied
to the concrete three-argument list "String, UInt8, Int8". -/
theorem map_arity_witness :
    parse_map_types (strBytes "String, UInt8, Int8") =
      .error (.valueError
        (strBytes "Invalid map type: " ++ strBytes "String, UInt8, Int8")) :=
  map_arity_and_splitting.2.1 (strBytes "String, UInt8, Int8") (by decide)

/-- C7: decoding a scripted server HELLO that carries exactly the fields
its announced revision admits, receive_hello reads timezone only when the
revision is at or above the server-timezone threshold, display name only at
or above the display-name threshold, and version patch only at or above the
version-patch threshold; gated-off fields keep the ServerInfo defaults
(empty timezone and display name, zero patch), and admitted fields equal
the scripted values. -/
theorem receive_hello_gates (name tz dn : List Nat)
    (vmaj vmin revision patch : Nat) (rest : List Nat) :
    receive_hello {} (encodeHello name vmaj vmin revision tz dn patch ++ rest) =
      (.ok { name := name, version_major := vmaj, version_minor := vmin,
             version_patch :=
               if revision ≥ Protocol.MIN_REVISION_WITH_VERSION_PATCH
               then patch else 0,
             revision := revision,
             timezone :=
               if revision ≥ Protocol.MIN_REVISION_WITH_SERVER_TIMEZONE
               then tz else [],
             display_name :=
               if revision ≥ Protocol.MIN_REVISION_WITH_SERVER_DISPLAY_NAME
               then dn else [] },
       rest) := by
  by_cases h1 : revision ≥ Protocol.MIN_REVISION_WITH_SERVER_TIMEZONE <;>
    by_cases h2 : revision ≥ Protocol.MIN_REVISION_WITH_SERVER_DISPLAY_NAME <;>
      by_cases h3 : revision ≥ Protocol.MIN_REVISION_WITH_VERSION_PATCH <;>
        simp [encodeHello, receive_hello, hello_read_timezone,
          hello_read_display_name, hello_read_patch, read_varint_write,
          read_string_enc, List.append_assoc, ServerCodes.HELLO,
          ServerCodes.EXCEPTION, h1, h2, h3]

/-- C8: when the stream ends while the dispatcher is awaiting the next
packet (the packet-type varint read raises EOFError), receive_packet
returns False without error and without touching the result, so the packet
loop terminates as a graceful success with the rows accumulated so far. -/
theorem eof_awaiting_packet_graceful (qr : QueryResult) (s : List Nat)
    (h : (read_varint s).1 = .error .eof) :
    receive_packet qr s = (.ok (false, qr), (read_varint s).2) ∧
    processPackets qr s = (.ok qr, (read_varint s).2) := by
  rcases hv : read_varint s with ⟨res, s1⟩
  rw [hv] at h
  simp only at h
  subst h
  have hrp : receive_packet qr s = (.ok (false, qr), s1) := by
    unfold receive_packet
    rw [hv]
  refine ⟨hrp, ?_⟩
  rw [processPackets]
  split
  next qr2 s2 heq =>
    rw [hrp] at heq
    simp at heq
  next qr2 s2 heq =>
    rw [hrp] at heq
    simp only [Prod.mk.injEq, Except.ok.injEq] at heq
    obtain ⟨⟨-, rfl⟩, rfl⟩ := heq
    rfl
  next e s2 heq =>
    rw [hrp] at heq
    simp at heq

/-- Witness for C8 on the empty stream. -/
theorem eof_awaiting_packet_graceful_witness :
    receive_packet {} [] = (.ok (false, ({} : QueryResult)), []) ∧
    processPackets {} [] = (.ok {}, []) := by
  have h := eof_awaiting_packet_graceful {} [] (by rfl)
  simpa [read_varint, readVarintAux] using h

/-- C9: ping returns true exactly when the streams are present, the PING
write and flush succeed, and the one packet read back is PONG; being a
total Boolean function, it returns false — never propagating — in every
other case (not connected, send failure, receive failure, or any non-PONG
packet code). -/
theorem ping_pong_iff (connected send_ok : Bool) (s : List Nat) :
    ping connected send_ok s = true ↔
      connected = true ∧ send_ok = true ∧
        (read_varint s).1 = .ok ServerCodes.PONG := by
  unfold ping
  rcases hv : read_varint s with ⟨res, s1⟩
  cases connected <;> cases send_ok <;> cases res <;>
    simp [ServerCodes.PONG, beq_iff_eq]

/-- C10: whenever the stream ends while read_block is decoding the block
header (the block-info varints, the temporary-table names, the column/row
counts, or the column name/type pairs — readBlockHeader covers exactly that
header), read_block returns the empty default Block instead of propagating
the end-of-stream error. -/
theorem truncated_header_empty_block (s : List Nat)
    (h : (readBlockHeader s).1 = .error .eof) :
    (read_block s).1 = .ok ⟨[], [], [], {}⟩ := by
  rcases hv : readBlockHeader s with ⟨res, s1⟩
  rw [hv] at h
  simp only at h
  subst h
  unfold read_block
  rw [hv]

/-- Witness for C10 on the empty stream, whose header read ends
immediately. -/
theorem truncated_header_empty_block_witness :
    (readBlockHeader []).1 = .error .eof ∧
    (read_block []).1 = .ok ⟨[], [], [], {}⟩ :=
  ⟨by rfl, truncated_header_empty_block [] (by rfl)⟩

set_option maxHeartbeats 4000000 in
/-- C1: after the packet loop of execute_query terminates normally, a
stored RemoteServerError makes execute_query fail with exactly that error
(code, name, message, stack trace and nested cause are the decoded
structure itself), and otherwise execute_query returns the rows of all DATA
blocks concatenated in arrival order (totals and extremes are stored
outside `blocks` and so excluded); in particular the scripted EXCEPTION
packet with code 62, name SYNTAX_ERROR, message "bad query" and no nested
cause fails with exactly those fields. -/
theorem execute_query_outcome :
    (∀ (s : List Nat) (qr : QueryResult) (s' : List Nat),
        processPackets {} s = (.ok qr, s') →
        (∀ e, qr.exception = some e →
            execute_query_recv s = .error (.inr e)) ∧
        (qr.exception = none →
            execute_query_recv s = .ok (qr.blocks.flatMap Block.rows))) ∧
    execute_query_recv
        (write_varint ServerCodes.EXCEPTION ++ write_varint 62
          ++ encStr (strBytes "SYNTAX_ERROR") ++ encStr (strBytes "bad query")
          ++ encStr [] ++ write_varint 0) =
      .error (.inr (.mk 62 (strBytes "SYNTAX_ERROR") (strBytes "bad query")
        [] none)) := by
  constructor
  · intro s qr s' h
    constructor
    · intro e he
      simp only [execute_query_recv, h, he]
    · intro he
      simp only [execute_query_recv, h, he, QueryResult.rows]
  · simp +decide [execute_query_recv, processPackets, receive_packet,
      handle_packet, handle_exception, read_exception, write_varint, encStr,
      read_varint, readVarintAux, readN, read_string, strBytes,
      ServerCodes.EXCEPTION, ServerCodes.DATA, ServerCodes.PROGRESS,
      ServerCodes.PROFILE_INFO, ServerCodes.TOTALS, ServerCodes.EXTREMES,
      ServerCodes.END_OF_STREAM, ServerCodes.PONG, QueryResult.rows]

/-- Witness for C1: the universally quantified part applied to the
one-packet END_OF_STREAM stream, whose loop stores no exception, so
execute_query returns the (empty) accumulated rows. -/
theorem execute_query_outcome_witness :
    execute_query_recv [5] = .ok (({} : QueryResult).blocks.flatMap Block.rows) := by
  have hloop : processPackets {} [5] = (.ok {}, []) := by
    simp +decide [processPackets, receive_packet, handle_packet, read_varint,
      readVarintAux, ServerCodes.DATA, ServerCodes.EXCEPTION,
      ServerCodes.PROGRESS, ServerCodes.PROFILE_INFO, ServerCodes.TOTALS,
      ServerCodes.EXTREMES, ServerCodes.END_OF_STREAM, ServerCodes.PONG]
  exact (execute_query_outcome.1 [5] {} [] hloop).2 rfl
